import Mathlib

/-!
# Verification of the pdf-showcase preview generator core

A shallow embedding of `src/pdf_preview/core.py` (page selection, duration
allocation, timeline composition, dimension parsing, document validation and
the `generate_preview` orchestrator), together with proofs of the behavioural
properties stated in the specification.

Python floats are modelled as exact rationals (`ℚ`); Python `int` as `ℕ`/`ℤ`;
`while` loops as fuel-indexed recursion returning `Option` (with `none`
standing for divergence); the filesystem and external libraries (PyMuPDF,
moviepy) as an explicit environment plus an effect trace.
-/

namespace PdfPreview

-- Expose the rational arithmetic primitives to definitional evaluation, so
-- that the embedded functions can be run on concrete inputs inside proofs.
attribute [local semireducible] Rat.add Rat.mul Rat.sub Rat.inv Rat.ofScientific

/-- Python 3 `round` on an exact rational: round half to even (banker's
rounding), as used by `round(i * step)` in `_select_pages`. -/
def pyRound (q : ℚ) : ℤ :=
  if q - ⌊q⌋ < 1/2 then ⌊q⌋
  else if 1/2 < q - ⌊q⌋ then ⌊q⌋ + 1
  else if ⌊q⌋ % 2 = 0 then ⌊q⌋ else ⌊q⌋ + 1

/-- The loop body expression `n * min_per_page - (n - 1) * crossfade` from
`_select_pages` (line 67 of core.py). -/
def durationAt (minPerPage crossfade : ℚ) (n : ℕ) : ℚ :=
  (n : ℚ) * minPerPage - ((n : ℚ) - 1) * crossfade

/-- The `while True` search loop of `_select_pages` (core.py lines 65-75),
fuel-indexed.  Starting from `n`, it breaks with `n - 1` as soon as the
duration expression exceeds `max_duration`, and clamps to `total_pages` when
`n` would exceed it. -/
def selectLoop (totalPages : ℕ) (maxDuration minPerPage crossfade : ℚ) :
    ℕ → ℕ → Option ℕ
  | 0, _ => none
  | fuel + 1, n =>
    if maxDuration < durationAt minPerPage crossfade n then some (n - 1)
    else if totalPages < n + 1 then some totalPages
    else selectLoop totalPages maxDuration minPerPage crossfade fuel (n + 1)

/-- `round(i * step)` with `step = (total_pages - 1) / (n - 1)` (core.py
lines 84-87), converted back to a natural page index. -/
def roundedIndex (totalPages n i : ℕ) : ℕ :=
  (pyRound ((i : ℚ) * (((totalPages : ℚ) - 1) / ((n : ℚ) - 1)))).toNat

/-- The list `[0] + interior rounded indices + [total_pages - 1]` built by
`_select_pages` before deduplication (core.py lines 81-88). -/
def rawIndices (totalPages n : ℕ) : List ℕ :=
  [0]
    ++ (if 2 < n then
          (List.range (n - 2)).map (fun j => roundedIndex totalPages n (j + 1))
        else [])
    ++ [totalPages - 1]

/-- Python `sorted(set(indices))` (core.py line 90): deduplicate, then sort
ascending. -/
def sortedSet (l : List ℕ) : List ℕ :=
  List.insertionSort (· ≤ ·) l.dedup

/-- The inner `for k in range(total_pages)` backfill loop (core.py lines
93-97): append each unused index, breaking as soon as the target count `n`
is reached. -/
def innerFill (n : ℕ) : List ℕ → List ℕ → List ℕ
  | acc, [] => acc
  | acc, k :: ks =>
    let acc2 := if k ∈ acc then acc else acc ++ [k]
    if acc2.length = n then acc2 else innerFill n acc2 ks

/-- The outer `while len(indices) < n` backfill loop (core.py lines 92-97),
fuel-indexed. -/
def whileFill (totalPages n : ℕ) : ℕ → List ℕ → Option (List ℕ)
  | 0, _ => none
  | fuel + 1, acc =>
    if acc.length < n then
      whileFill totalPages n fuel (innerFill n acc (List.range totalPages))
    else some acc

/-- `_select_pages` (core.py lines 61-98).  `none` models divergence of one
of the two `while` loops; termination with the given fuel is proved below. -/
def selectPages (totalPages : ℕ) (maxDuration minPerPage crossfade : ℚ) :
    Option (List ℕ) :=
  match selectLoop totalPages maxDuration minPerPage crossfade (totalPages + 1) 1 with
  | none => none
  | some n0 =>
    if totalPages ≤ max 1 n0 then some (List.range totalPages)
    else
      match whileFill totalPages (max 1 n0) (totalPages + 2)
          (sortedSet (rawIndices totalPages (max 1 n0))) with
      | none => none
      | some res => some (List.insertionSort (· ≤ ·) res)

/-- `_compute_per_page_duration` (core.py lines 120-124). -/
def computePerPageDuration (nPages : ℕ) (maxDuration minPerPage crossfade : ℚ) : ℚ :=
  max minPerPage ((maxDuration + ((nPages : ℚ) - 1) * crossfade) / (nPages : ℚ))

/-- Python `str.lower` (character-wise ASCII lowercasing). -/
def lowerStr (s : String) : String :=
  String.mk (s.data.map Char.toLower)

/-- Python `str.split("x")` at character level: cut the character list at
every `'x'`. -/
def splitX : List Char → List (List Char)
  | [] => [[]]
  | c :: cs =>
    let r := splitX cs
    if c = 'x' then [] :: r
    else (c :: r.headI) :: r.tail

/-- Python `int(s)` for the digit strings produced by the dimension parser
(`none` models the raised `ValueError`; signs and whitespace, which Python
would also accept, only lead to the same rejection further down since the
parsed value must be strictly positive). -/
def parseNat? (l : List Char) : Option ℕ :=
  if l ≠ [] ∧ l.all Char.isDigit then
    some (l.foldl (fun acc c => 10 * acc + (c.toNat - 48)) 0)
  else none

/-- The error message raised by `_parse_dimensions`. -/
def invalidDimensionsMsg : String :=
  "Invalid dimensions. Use \"small\", \"medium\", \"large\", or custom format \"WIDTHxHEIGHT\"."

/-- `_parse_dimensions` (core.py lines 17-38): named presets matched on the
lowercased string first, otherwise `WIDTHxHEIGHT` with positive integers;
`none` models the raised `ValueError`. -/
def parseDimensions (dimensions : String) : Option (ℕ × ℕ) :=
  if lowerStr dimensions = "small" then some (320, 480)
  else if lowerStr dimensions = "medium" then some (480, 640)
  else if lowerStr dimensions = "large" then some (720, 960)
  else
    match splitX (lowerStr dimensions).data with
    | [wStr, hStr] =>
      match parseNat? wStr, parseNat? hStr with
      | some w, some h => if w ≤ 0 ∨ h ≤ 0 then none else some (w, h)
      | _, _ => none
    | _ => none

/-- Observable side effects of `generate_preview`, in program order. -/
inductive Effect where
  | openDoc : Effect
  | renderPage : ℕ → Effect
  | composeT : Effect
  | makeDirs : String → Effect
  | writeGif : String → Effect
  | writeMp4 : String → Effect
deriving DecidableEq, Repr

/-- The filesystem/PyMuPDF facts `generate_preview` consults: whether the
input path is a regular file, its size in bytes, and `some pageCount` when
`fitz.open` succeeds (`none` when it raises). -/
structure Env where
  isFile : Bool
  sizeBytes : ℕ
  openResult : Option ℕ
deriving DecidableEq, Repr

/-- The arguments of `generate_preview` (core.py lines 127-136) relevant to
its control flow. -/
structure Request where
  pdfPath : String
  outputBasename : String
  maxDuration : ℚ
  format : String
  dimensions : String
  crossfade : ℚ
  fpsGif : ℕ
  fpsMp4 : ℕ
deriving DecidableEq, Repr

/-- `_validate_pdf` (core.py lines 41-58), returning the raised
`PDFValidationError` message or success, paired with the trace of document
opens it performs. -/
def validatePdf (env : Env) (pdfPath : String) (maxSizeBytes maxPages : ℕ) :
    Except String Unit × List Effect :=
  if env.isFile = false then (.error "Input file does not exist.", [])
  else if ".pdf".data.isSuffixOf (lowerStr pdfPath).data = false then
    (.error "Input file must be a PDF (.pdf).", [])
  else if maxSizeBytes < env.sizeBytes then
    (.error "PDF exceeds the 25 MB size limit.", [])
  else
    match env.openResult with
    | none =>
      (.error "Failed to open PDF. The file may be corrupted or not a valid PDF.",
        [.openDoc])
    | some pageCount =>
      if maxPages < pageCount then
        (.error s!"PDF exceeds the maximum page count of {maxPages} (found {pageCount}).",
          [.openDoc])
      else (.ok (), [.openDoc])

/-- Default `max_size_bytes` of `_validate_pdf`: `25 * 1024 * 1024`. -/
def defaultMaxSize : ℕ := 25 * 1024 * 1024

/-- Default `max_pages` of `_validate_pdf`. -/
def defaultMaxPages : ℕ := 100

/-- A timed layer of the composite video: frame index, start time, duration
and fade-in length (the moviepy `CrossFadeIn` effect length). -/
structure TimedLayer where
  frameIdx : ℕ
  start : ℚ
  duration : ℚ
  fadeIn : ℚ
deriving DecidableEq, Repr

/-- The timeline construction of `generate_preview` (core.py lines 193-209):
the placed layers and the total duration passed to `with_duration`. -/
def composeTimeline (nFrames : ℕ) (perPage crossfade : ℚ) :
    List TimedLayer × ℚ :=
  if nFrames = 1 ∨ crossfade ≤ 0 then
    ([⟨0, 0, perPage, 0⟩], perPage)
  else
    ((List.range nFrames).map (fun i =>
        ⟨i, (i : ℚ) * (perPage - crossfade), perPage,
          if 0 < i then crossfade else 0⟩),
      ((nFrames : ℚ) - 1) * (perPage - crossfade) + perPage)

/-- `os.path.dirname` for the relative slash-separated paths used here:
everything before the last `/`, or `""` when there is no `/`. -/
def dirname (p : String) : String :=
  if '/' ∈ p.data then
    String.mk (((p.data.reverse.dropWhile (fun c => c != '/')).drop 1).reverse)
  else ""

/-- The `min_per_page` policy constant fixed inside `generate_preview`
(core.py line 170): `0.4`. -/
def minPerPageConst : ℚ := 2/5

/-- The error message of the late format check (core.py line 218). -/
def badFormatMsg : String := "format must be one of: \"gif\", \"mp4\", \"all\"."

/-- The gif output paths (core.py lines 220-223): `[basename + ".gif"]`
exactly when the lowercased format is `"gif"` or `"all"`. -/
def gifOutputs (req : Request) : List String :=
  if lowerStr req.format = "gif" ∨ lowerStr req.format = "all" then
    [req.outputBasename ++ ".gif"]
  else []

/-- The mp4 output paths (core.py lines 225-228): `[basename + ".mp4"]`
exactly when the lowercased format is `"mp4"` or `"all"`. -/
def mp4Outputs (req : Request) : List String :=
  if lowerStr req.format = "mp4" ∨ lowerStr req.format = "all" then
    [req.outputBasename ++ ".mp4"]
  else []

/-- The effect trace `generate_preview` has produced by the time the format
check at core.py line 217 runs: the document open performed by
`_validate_pdf`, the main document open, one render per selected page, the
timeline composition, and the conditional output-directory creation
(core.py lines 211-214). -/
def preWriteTrace (tr0 : List Effect) (req : Request) (indices : List ℕ) :
    List Effect :=
  tr0 ++ [.openDoc] ++ indices.map .renderPage ++ [.composeT] ++
    (if dirname req.outputBasename = "" then []
     else [.makeDirs (dirname req.outputBasename)])

/-- `generate_preview` (core.py lines 127-234): result (returned output
paths, or the message of the raised error) paired with the ordered trace of
observable side effects.  The numeric content of the composed clip is
`composeTimeline indices.length (computePerPageDuration indices.length
maxDuration minPerPage crossfade) crossfade`, marked in the trace by
`composeT`. -/
def generatePreview (env : Env) (req : Request) :
    Except String (List String) × List Effect :=
  if req.maxDuration ≤ 0 then (.error "max_duration must be positive.", [])
  else if req.crossfade < 0 ∨ 1 ≤ req.crossfade then
    (.error "crossfade must be between 0 and 1 second for best results.", [])
  else
    match parseDimensions req.dimensions with
    | none => (.error invalidDimensionsMsg, [])
    | some _wh =>
      match validatePdf env req.pdfPath defaultMaxSize defaultMaxPages with
      | (.error e, tr) => (.error e, tr)
      | (.ok _, tr0) =>
        match env.openResult with
        | none =>
          -- unreachable after a successful `_validate_pdf` (same deterministic
          -- env); models the uncaught exception of the second `fitz.open`
          (.error "Failed to open PDF. The file may be corrupted or not a valid PDF.",
            tr0 ++ [.openDoc])
        | some totalPages =>
          match selectPages totalPages req.maxDuration minPerPageConst req.crossfade with
          | none =>
            -- divergence of the selection loops (proved impossible below)
            (.error "page selection diverged", tr0 ++ [.openDoc])
          | some indices =>
            if lowerStr req.format ≠ "gif" ∧ lowerStr req.format ≠ "mp4" ∧
                lowerStr req.format ≠ "all" then
              (.error badFormatMsg, preWriteTrace tr0 req indices)
            else
              (.ok (gifOutputs req ++ mp4Outputs req),
                preWriteTrace tr0 req indices
                  ++ (gifOutputs req).map .writeGif
                  ++ (mp4Outputs req).map .writeMp4)

/-- From the claim's words (refinement target for the page-count claim):
"the largest integer n with 1 ≤ n ≤ totalPages such that
`n*minPerPage - (n-1)*crossfade ≤ maxDuration`" (0 when no such n exists). -/
def specLargestSatisfying (totalPages : ℕ) (maxDuration minPerPage crossfade : ℚ) : ℕ :=
  Nat.findGreatest
    (fun n => 1 ≤ n ∧ durationAt minPerPage crossfade n ≤ maxDuration) totalPages

/-! ### Basic bounds for rounding and the raw index list -/

lemma le_pyRound (q : ℚ) : ⌊q⌋ ≤ pyRound q := by
  unfold pyRound
  split_ifs <;> omega

lemma pyRound_le (q : ℚ) : pyRound q ≤ ⌊q⌋ + 1 := by
  unfold pyRound
  split_ifs <;> omega

lemma roundedIndex_le (tp n i : ℕ) (h3 : 3 ≤ n) (hn : n < tp)
    (hi2 : i ≤ n - 2) : roundedIndex tp n i ≤ tp - 1 := by
  have hn2 : (2 : ℚ) ≤ (n : ℚ) := by exact_mod_cast Nat.le_of_lt h3
  have hntp : (n : ℚ) < (tp : ℚ) := by exact_mod_cast hn
  have hipos : (i : ℚ) ≤ (n : ℚ) - 2 := by
    have : (i : ℚ) ≤ ((n - 2 : ℕ) : ℚ) := by exact_mod_cast hi2
    have h22 : ((n - 2 : ℕ) : ℚ) = (n : ℚ) - 2 := by
      have : 2 ≤ n := by omega
      push_cast [Nat.cast_sub this]
      ring
    linarith [h22 ▸ this]
  have hden : (0 : ℚ) < (n : ℚ) - 1 := by linarith
  set q : ℚ := (i : ℚ) * (((tp : ℚ) - 1) / ((n : ℚ) - 1)) with hq
  have hqle : q ≤ (tp : ℚ) - 2 := by
    rw [hq, mul_div_assoc']
    rw [div_le_iff₀ hden]
    nlinarith
  have hfloor : ⌊q⌋ ≤ (tp : ℤ) - 2 := by
    have h1 : ⌊q⌋ ≤ ⌊(tp : ℚ) - 2⌋ := Int.floor_le_floor hqle
    have h2 : ⌊(tp : ℚ) - 2⌋ = (tp : ℤ) - 2 := by
      have : ((tp : ℤ) - 2 : ℤ) = ((tp : ℚ) - 2 : ℚ) := by push_cast; ring
      rw [← this, Int.floor_intCast]
    omega
  have hr : pyRound q ≤ (tp : ℤ) - 1 := le_trans (pyRound_le q) (by omega)
  unfold roundedIndex
  rw [← hq]
  have : (pyRound q).toNat ≤ ((tp : ℤ) - 1).toNat := Int.toNat_le_toNat hr
  have htp1 : ((tp : ℤ) - 1).toNat = tp - 1 := by omega
  omega

lemma rawIndices_lt (tp n : ℕ) (h1 : 1 ≤ tp) (hn : n < tp) :
    ∀ x ∈ rawIndices tp n, x < tp := by
  intro x hx
  unfold rawIndices at hx
  simp only [List.mem_append, List.mem_singleton, List.mem_cons,
    List.not_mem_nil, or_false] at hx
  rcases hx with (hx | hx) | hx
  · omega
  · split_ifs at hx with h2
    · simp only [List.mem_map, List.mem_range] at hx
      obtain ⟨j, hj, rfl⟩ := hx
      have := roundedIndex_le tp n (j + 1) (by omega) hn (by omega)
      omega
    · simp at hx
  · omega

lemma zero_mem_rawIndices (tp n : ℕ) : 0 ∈ rawIndices tp n := by
  unfold rawIndices
  simp

lemma last_mem_rawIndices (tp n : ℕ) : tp - 1 ∈ rawIndices tp n := by
  unfold rawIndices
  simp

lemma rawIndices_length (tp n : ℕ) :
    (rawIndices tp n).length = if 2 < n then n else 2 := by
  unfold rawIndices
  split_ifs with h
  · simp only [List.length_append, List.length_singleton, List.length_map,
      List.length_range]
    omega
  · simp

/-! ### `sortedSet` -/

lemma sortedSet_mem (l : List ℕ) (x : ℕ) : x ∈ sortedSet l ↔ x ∈ l := by
  unfold sortedSet
  rw [(List.perm_insertionSort (· ≤ ·) l.dedup).mem_iff, List.mem_dedup]

lemma sortedSet_nodup (l : List ℕ) : (sortedSet l).Nodup := by
  unfold sortedSet
  exact (List.perm_insertionSort (· ≤ ·) l.dedup).nodup_iff.mpr l.nodup_dedup

lemma sortedSet_length_le (l : List ℕ) : (sortedSet l).length ≤ l.length := by
  unfold sortedSet
  rw [(List.perm_insertionSort (· ≤ ·) l.dedup).length_eq]
  exact l.dedup_sublist.length_le

/-! ### The duration search loop -/

lemma selectLoop_some (tp : ℕ) (md mpp cf : ℚ) :
    ∀ fuel n, 1 ≤ n → n ≤ tp → tp + 1 ≤ fuel + n →
    ∃ r, selectLoop tp md mpp cf fuel n = some r ∧ r ≤ tp := by
  intro fuel
  induction fuel with
  | zero => intro n _ h2 h3; omega
  | succ fuel ih =>
    intro n h1 h2 h3
    rw [selectLoop]
    split_ifs with hd hclamp
    · exact ⟨n - 1, rfl, by omega⟩
    · exact ⟨tp, rfl, le_refl tp⟩
    · exact ih (n + 1) (by omega) (by omega) (by omega)

lemma durationAt_mono (mpp cf : ℚ) (hm : cf ≤ mpp) {a b : ℕ} (hab : a ≤ b) :
    durationAt mpp cf a ≤ durationAt mpp cf b := by
  unfold durationAt
  have h1 : (a : ℚ) ≤ (b : ℚ) := by exact_mod_cast hab
  nlinarith [mul_le_mul_of_nonneg_left hm (sub_nonneg.mpr h1)]

lemma selectLoop_count (tp : ℕ) (md mpp cf : ℚ) (hm : cf ≤ mpp) :
    ∀ fuel n, 1 ≤ n → n ≤ tp → tp + 1 ≤ fuel + n →
    (∀ m, 1 ≤ m → m < n → durationAt mpp cf m ≤ md) →
    ∃ r, selectLoop tp md mpp cf fuel n = some r ∧
      max 1 r = max 1 (specLargestSatisfying tp md mpp cf) := by
  intro fuel
  induction fuel with
  | zero => intro n _ h2 h3; omega
  | succ fuel ih =>
    intro n h1 h2 h3 hinv
    rw [selectLoop]
    split_ifs with hd hclamp
    · -- the inequality broke at `n`: the loop answers `n - 1`
      refine ⟨n - 1, rfl, ?_⟩
      have hfail : ∀ m, n ≤ m → ¬ durationAt mpp cf m ≤ md := by
        intro m hnm hle
        exact absurd (le_trans (durationAt_mono mpp cf hm hnm) hle) (not_le.mpr hd)
      rcases Nat.lt_or_ge n 2 with hn2 | hn2
      · -- `n = 1`: nothing satisfies the bound at all
        have hzero : specLargestSatisfying tp md mpp cf = 0 := by
          rw [specLargestSatisfying, Nat.findGreatest_eq_zero_iff]
          intro m hm0 _ hPm
          exact hfail m (by omega) hPm.2
        omega
      · -- `n ≥ 2`: `n - 1` is exactly the largest satisfying count
        have heq : specLargestSatisfying tp md mpp cf = n - 1 := by
          rw [specLargestSatisfying, Nat.findGreatest_eq_iff]
          refine ⟨by omega, fun _ => ⟨by omega, hinv (n - 1) (by omega) (by omega)⟩, ?_⟩
          intro m hm1 _ hPm
          exact hfail m (by omega) hPm.2
        omega
    · -- `n + 1 > tp`, i.e. `n = tp`: the loop clamps to `tp`
      refine ⟨tp, rfl, ?_⟩
      have hntp : n = tp := by omega
      have : specLargestSatisfying tp md mpp cf = tp := by
        rw [specLargestSatisfying]
        exact Nat.findGreatest_eq ⟨by omega, hntp ▸ not_lt.mp hd⟩
      omega
    · exact ih (n + 1) (by omega) (by omega) (by omega)
        (fun m hm1 hmn => by
          rcases Nat.lt_or_ge m n with h | h
          · exact hinv m hm1 h
          · have : m = n := by omega
            exact this ▸ not_lt.mp hd)

/-! ### The backfill loops -/

/-- One iteration of the backfill `for` body: conditionally append `k`. -/
def fillStep (acc : List ℕ) (k : ℕ) : List ℕ :=
  if k ∈ acc then acc else acc ++ [k]

lemma innerFill_cons (n k : ℕ) (ks acc : List ℕ) :
    innerFill n acc (k :: ks) =
      if (fillStep acc k).length = n then fillStep acc k
      else innerFill n (fillStep acc k) ks := rfl

lemma subset_fillStep (acc : List ℕ) (k : ℕ) : acc ⊆ fillStep acc k := by
  unfold fillStep
  split_ifs
  · exact fun x hx => hx
  · exact fun x hx => List.mem_append_left _ hx

lemma mem_fillStep (acc : List ℕ) (k x : ℕ) (hx : x ∈ fillStep acc k) :
    x ∈ acc ∨ x = k := by
  unfold fillStep at hx
  split_ifs at hx
  · exact Or.inl hx
  · rcases List.mem_append.mp hx with h | h
    · exact Or.inl h
    · exact Or.inr (List.mem_singleton.mp h)

lemma self_mem_fillStep (acc : List ℕ) (k : ℕ) : k ∈ fillStep acc k := by
  unfold fillStep
  split_ifs with hk
  · exact hk
  · exact List.mem_append_right _ (List.mem_singleton_self k)

lemma fillStep_nodup (acc : List ℕ) (k : ℕ) (h : acc.Nodup) :
    (fillStep acc k).Nodup := by
  unfold fillStep
  split_ifs with hk
  · exact h
  · rw [List.nodup_append]
    exact ⟨h, List.nodup_singleton k,
      fun x hx hk2 => hk ((List.mem_singleton.mp hk2) ▸ hx)⟩

lemma fillStep_length_le (acc : List ℕ) (k : ℕ) :
    (fillStep acc k).length ≤ acc.length + 1 := by
  unfold fillStep
  split_ifs <;> simp

lemma innerFill_subset (n : ℕ) :
    ∀ ks acc, acc ⊆ innerFill n acc ks := by
  intro ks
  induction ks with
  | nil => intro acc; rw [innerFill]; exact fun x hx => hx
  | cons k ks ih =>
    intro acc
    rw [innerFill_cons]
    split_ifs
    · exact subset_fillStep acc k
    · exact fun x hx => ih _ (subset_fillStep acc k hx)

lemma innerFill_mem (n : ℕ) :
    ∀ ks acc x, x ∈ innerFill n acc ks → x ∈ acc ∨ x ∈ ks := by
  intro ks
  induction ks with
  | nil => intro acc x hx; rw [innerFill] at hx; exact Or.inl hx
  | cons k ks ih =>
    intro acc x hx
    rw [innerFill_cons] at hx
    split_ifs at hx
    · rcases mem_fillStep acc k x hx with h | h
      · exact Or.inl h
      · exact Or.inr (by simp [h])
    · rcases ih _ x hx with h | h
      · rcases mem_fillStep acc k x h with h2 | h2
        · exact Or.inl h2
        · exact Or.inr (by simp [h2])
      · exact Or.inr (List.mem_cons_of_mem _ h)

lemma innerFill_nodup (n : ℕ) :
    ∀ ks acc, acc.Nodup → (innerFill n acc ks).Nodup := by
  intro ks
  induction ks with
  | nil => intro acc h; rw [innerFill]; exact h
  | cons k ks ih =>
    intro acc h
    rw [innerFill_cons]
    split_ifs
    · exact fillStep_nodup acc k h
    · exact ih _ (fillStep_nodup acc k h)

lemma innerFill_length_le (n : ℕ) :
    ∀ ks acc, acc.length < n → (innerFill n acc ks).length ≤ n := by
  intro ks
  induction ks with
  | nil => intro acc h; rw [innerFill]; omega
  | cons k ks ih =>
    intro acc h
    rw [innerFill_cons]
    have hlen := fillStep_length_le acc k
    split_ifs with heq
    · omega
    · exact ih _ (by omega)

lemma innerFill_covers (n : ℕ) :
    ∀ ks acc, (innerFill n acc ks).length < n →
      ∀ k ∈ ks, k ∈ innerFill n acc ks := by
  intro ks
  induction ks with
  | nil => intro acc _ k hk; exact absurd hk (List.not_mem_nil k)
  | cons k ks ih =>
    intro acc hlt x hx
    rw [innerFill_cons] at hlt ⊢
    split_ifs at hlt ⊢ with heq
    · omega
    · rcases List.mem_cons.mp hx with rfl | hx2
      · exact innerFill_subset n ks _ (self_mem_fillStep acc x)
      · exact ih _ hlt x hx2

lemma innerFill_length_eq (tp n : ℕ) (acc : List ℕ)
    (hlt : acc.length < n) (hn : n ≤ tp) :
    (innerFill n acc (List.range tp)).length = n := by
  have hle := innerFill_length_le n (List.range tp) acc hlt
  by_contra hne
  have hlt2 : (innerFill n acc (List.range tp)).length < n :=
    lt_of_le_of_ne hle hne
  have hcov := innerFill_covers n (List.range tp) acc hlt2
  have hsub : List.range tp ⊆ innerFill n acc (List.range tp) :=
    fun x hx => hcov x hx
  have hsp := (List.nodup_range tp).subperm hsub
  have := hsp.length_le
  rw [List.length_range] at this
  omega

lemma whileFill_spec (tp n : ℕ) (acc : List ℕ) (hnd : acc.Nodup)
    (hbound : ∀ x ∈ acc, x < tp) (hn : n ≤ tp) :
    ∃ res, whileFill tp n (tp + 2) acc = some res ∧ res.Nodup ∧
      (∀ x ∈ res, x < tp) ∧ acc ⊆ res ∧
      res.length = max acc.length n := by
  rcases Nat.lt_or_ge acc.length n with hlt | hge
  · -- one pass of the inner loop reaches exactly `n`
    have hstep : whileFill tp n (tp + 2) acc
        = whileFill tp n (tp + 1) (innerFill n acc (List.range tp)) := by
      show (if acc.length < n then _ else _) = _
      rw [if_pos hlt]
    have hfull : (innerFill n acc (List.range tp)).length = n :=
      innerFill_length_eq tp n acc hlt hn
    have hstop : whileFill tp n (tp + 1) (innerFill n acc (List.range tp))
        = some (innerFill n acc (List.range tp)) := by
      show (if (innerFill n acc (List.range tp)).length < n then _ else _) = _
      rw [if_neg (by omega)]
    refine ⟨innerFill n acc (List.range tp), by rw [hstep, hstop], ?_, ?_, ?_, ?_⟩
    · exact innerFill_nodup n (List.range tp) acc hnd
    · intro x hx
      rcases innerFill_mem n (List.range tp) acc x hx with h | h
      · exact hbound x h
      · exact List.mem_range.mp h
    · exact innerFill_subset n (List.range tp) acc
    · omega
  · refine ⟨acc, ?_, hnd, hbound, fun x hx => hx, by omega⟩
    show (if acc.length < n then _ else _) = _
    rw [if_neg (by omega)]

/-! ### Main invariants of `_select_pages` -/

lemma selectPages_spec (tp : ℕ) (md mpp cf : ℚ) (h1 : 1 ≤ tp) :
    ∃ n0 l, selectLoop tp md mpp cf (tp + 1) 1 = some n0 ∧
      selectPages tp md mpp cf = some l ∧
      l.Sorted (· < ·) ∧ l.Nodup ∧ (∀ x ∈ l, x < tp) ∧
      0 ∈ l ∧ 1 ≤ l.length ∧ l.length ≤ tp ∧
      l.length = min tp (max 2 (max 1 n0)) ∧
      (max 1 n0 < tp → (tp - 1) ∈ l) ∧
      (tp = 1 → l = [0]) := by
  obtain ⟨n0, hloop, hn0⟩ :=
    selectLoop_some tp md mpp cf (tp + 1) 1 (le_refl 1) h1 (by omega)
  refine ⟨n0, ?_⟩
  have hn1 : 1 ≤ max 1 n0 := le_max_left _ _
  have hnle : max 1 n0 ≤ tp := by omega
  have hsel_eq : selectPages tp md mpp cf =
      (if tp ≤ max 1 n0 then some (List.range tp)
       else
        match whileFill tp (max 1 n0) (tp + 2)
            (sortedSet (rawIndices tp (max 1 n0))) with
        | none => none
        | some res => some (List.insertionSort (· ≤ ·) res)) := by
    unfold selectPages
    rw [hloop]
  by_cases htp : tp ≤ max 1 n0
  · -- all pages selected: `list(range(total_pages))`
    rw [if_pos htp] at hsel_eq
    refine ⟨List.range tp, hloop, hsel_eq, List.sorted_lt_range tp,
      List.nodup_range tp, fun x hx => List.mem_range.mp hx,
      List.mem_range.mpr (by omega), ?_, ?_, ?_, ?_, ?_⟩
    · rw [List.length_range]; omega
    · rw [List.length_range]
    · rw [List.length_range]; omega
    · intro h; omega
    · intro h; rw [h]; rfl
  · -- a strict subset is sampled, deduplicated and backfilled
    rw [if_neg htp] at hsel_eq
    have hntp : max 1 n0 < tp := by omega
    have htp2 : 2 ≤ tp := by omega
    -- properties of the deduplicated sorted sample
    have hmemL0 : ∀ x, x ∈ sortedSet (rawIndices tp (max 1 n0)) ↔
        x ∈ rawIndices tp (max 1 n0) := fun x => sortedSet_mem _ x
    have hndL0 : (sortedSet (rawIndices tp (max 1 n0))).Nodup :=
      sortedSet_nodup _
    have hboundL0 : ∀ x ∈ sortedSet (rawIndices tp (max 1 n0)), x < tp :=
      fun x hx => rawIndices_lt tp (max 1 n0) h1 hntp x ((hmemL0 x).mp hx)
    have h0L0 : 0 ∈ sortedSet (rawIndices tp (max 1 n0)) :=
      (hmemL0 0).mpr (zero_mem_rawIndices tp (max 1 n0))
    have hlastL0 : tp - 1 ∈ sortedSet (rawIndices tp (max 1 n0)) :=
      (hmemL0 (tp - 1)).mpr (last_mem_rawIndices tp (max 1 n0))
    have hL0len2 : 2 ≤ (sortedSet (rawIndices tp (max 1 n0))).length := by
      have hpair : ([0, tp - 1] : List ℕ).Nodup := by
        refine List.nodup_cons.mpr ⟨?_, List.nodup_singleton _⟩
        rw [List.mem_singleton]
        omega
      have hsub : ([0, tp - 1] : List ℕ) ⊆
          sortedSet (rawIndices tp (max 1 n0)) := by
        intro x hx
        rcases List.mem_cons.mp hx with rfl | hx
        · exact h0L0
        · rw [List.mem_singleton.mp hx]
          exact hlastL0
      have := (hpair.subperm hsub).length_le
      simpa using this
    have hL0lenle : (sortedSet (rawIndices tp (max 1 n0))).length ≤
        max 2 (max 1 n0) := by
      have h1' := sortedSet_length_le (rawIndices tp (max 1 n0))
      rw [rawIndices_length] at h1'
      split_ifs at h1' <;> omega
    obtain ⟨res, hW, hresnd, hresbound, hressub, hreslen⟩ :=
      whileFill_spec tp (max 1 n0) (sortedSet (rawIndices tp (max 1 n0)))
        hndL0 hboundL0 hnle
    rw [hW] at hsel_eq
    have hperm := List.perm_insertionSort (· ≤ ·) res
    have hnd : (List.insertionSort (· ≤ ·) res).Nodup :=
      hperm.nodup_iff.mpr hresnd
    have hmem : ∀ x, x ∈ List.insertionSort (· ≤ ·) res ↔ x ∈ res :=
      fun x => hperm.mem_iff
    have hlen : (List.insertionSort (· ≤ ·) res).length = res.length :=
      hperm.length_eq
    have hlenval : res.length = max 2 (max 1 n0) := by omega
    refine ⟨List.insertionSort (· ≤ ·) res, hloop, hsel_eq,
      (List.sorted_insertionSort (· ≤ ·) res).lt_of_le hnd, hnd,
      fun x hx => hresbound x ((hmem x).mp hx),
      (hmem 0).mpr (hressub h0L0), ?_, ?_, ?_, ?_, ?_⟩
    · omega
    · omega
    · omega
    · intro _
      exact (hmem (tp - 1)).mpr (hressub hlastL0)
    · intro h; omega

/-! ### Claim theorems: page selector -/

/-- **C2**: for every `totalPages ≥ 1`, `maxDuration > 0`, `minPerPage > 0`
and `crossfade ∈ [0,1)`, the selection returned by `_select_pages` is
strictly increasing, duplicate-free, within `[0, totalPages-1]`, of length
between 1 and `totalPages`, and equals `[0]` when `totalPages = 1`. -/
theorem page_selector_invariants (tp : ℕ) (md mpp cf : ℚ)
    (h1 : 1 ≤ tp) (h2 : 0 < md) (h3 : 0 < mpp) (h4 : 0 ≤ cf) (h5 : cf < 1) :
    ∃ l, selectPages tp md mpp cf = some l ∧
      l.Sorted (· < ·) ∧ l.Nodup ∧ (∀ x ∈ l, x ≤ tp - 1) ∧
      1 ≤ l.length ∧ l.length ≤ tp ∧ (tp = 1 → l = [0]) := by
  obtain ⟨n0, l, _, hsel, hsort, hnd, hbound, _, hlen1, hlen2, _, _, hone⟩ :=
    selectPages_spec tp md mpp cf h1
  exact ⟨l, hsel, hsort, hnd,
    fun x hx => by have := hbound x hx; omega, hlen1, hlen2, hone⟩

theorem page_selector_invariants_witness :
    ∃ l, selectPages 5 10 (2/5) (3/20) = some l ∧
      l.Sorted (· < ·) ∧ l.Nodup ∧ (∀ x ∈ l, x ≤ 5 - 1) ∧
      1 ≤ l.length ∧ l.length ≤ 5 ∧ (5 = 1 → l = [0]) :=
  page_selector_invariants 5 10 (2/5) (3/20) (by norm_num) (by norm_num)
    (by norm_num) (by norm_num) (by norm_num)

/-- **C3**: whenever `_select_pages` returns fewer than `totalPages` indices
(with `totalPages > 1`), the selection contains both `0` and
`totalPages - 1`. -/
theorem page_selector_endpoints (tp : ℕ) (md mpp cf : ℚ) (h1 : 1 < tp)
    (l : List ℕ) (hsel : selectPages tp md mpp cf = some l)
    (hlen : l.length < tp) : 0 ∈ l ∧ (tp - 1) ∈ l := by
  obtain ⟨n0, l', _, hsel', _, _, _, h0, _, _, hlenf, hend, _⟩ :=
    selectPages_spec tp md mpp cf (by omega)
  rw [hsel] at hsel'
  obtain rfl : l = l' := Option.some_injective _ hsel'
  exact ⟨h0, hend (by omega)⟩

theorem page_selector_endpoints_witness :
    0 ∈ [0, 4] ∧ (5 - 1 : ℕ) ∈ [0, 4] :=
  page_selector_endpoints 5 (1/5) (2/5) (3/20) (by norm_num) [0, 4]
    (by decide) (by decide)

/-- **C10**: the two `while` loops of `_select_pages` terminate for every
input with `totalPages ≥ 1`, `maxDuration > 0`, `minPerPage > 0` and
`crossfade ∈ [0,1)` — including the regime `crossfade ≥ minPerPage`, where
the duration inequality never breaks and only the `n > totalPages` clamp
stops the search (the given fuel always suffices). -/
theorem page_selector_terminates (tp : ℕ) (md mpp cf : ℚ)
    (h1 : 1 ≤ tp) (h2 : 0 < md) (h3 : 0 < mpp) (h4 : 0 ≤ cf) (h5 : cf < 1) :
    (selectPages tp md mpp cf).isSome = true := by
  obtain ⟨_, l, _, hsel, _⟩ := selectPages_spec tp md mpp cf h1
  rw [hsel]
  rfl

theorem page_selector_terminates_witness :
    (selectPages 4 3 (2/5) (1/2)).isSome = true :=
  page_selector_terminates 4 3 (2/5) (1/2) (by norm_num) (by norm_num)
    (by norm_num) (by norm_num) (by norm_num)

/-- **C1, counterexample**: at `totalPages = 5`, `maxDuration = 1/5`,
`minPerPage = 2/5`, `crossfade = 3/20` the code selects 2 indices (`[0, 4]`),
while "the largest n with `n*minPerPage - (n-1)*crossfade ≤ maxDuration`,
clamped to at least 1" is 1: the claimed equality fails. -/
theorem page_selector_count_claim_false :
    ¬ ((selectPages 5 (1/5) (2/5) (3/20)).map List.length
        = some (max 1 (specLargestSatisfying 5 (1/5) (2/5) (3/20)))) := by
  decide

/-- **C1, amended**: for `minPerPage = 0.4` and `crossfade ≤ minPerPage`
(so that the incrementally searched duration bound is monotone), the
selected count is the claimed largest satisfying `n` — additionally clamped
below by 2 (the selector always keeps both endpoints once `totalPages ≥ 2`)
and above by `totalPages`.  In particular the
`totalPages=100, maxDuration=10, crossfade=0.15` scenario selects exactly
39 indices. -/
theorem page_selector_count_amended :
    (∀ (tp : ℕ) (md cf : ℚ), 1 ≤ tp → 0 < md → 0 ≤ cf → cf < 1 → cf ≤ 2/5 →
      (selectPages tp md (2/5) cf).map List.length
        = some (min tp (max 2 (max 1 (specLargestSatisfying tp md (2/5) cf))))) ∧
    (selectPages 100 10 (2/5) (3/20)).map List.length = some 39 := by
  constructor
  · intro tp md cf h1 h2 h4 h5 hcfm
    obtain ⟨n0, l, hloop, hsel, _, _, _, _, _, _, hlenf, _, _⟩ :=
      selectPages_spec tp md (2/5) cf h1
    obtain ⟨r, hloop2, hcount⟩ :=
      selectLoop_count tp md (2/5) cf hcfm (tp + 1) 1 (le_refl 1) h1 (by omega)
        (fun m hm1 hm2 => absurd hm1 (by omega))
    rw [hloop] at hloop2
    obtain rfl : n0 = r := Option.some_injective _ hloop2
    rw [hsel]
    simp only [Option.map_some']
    congr 1
    omega
  · decide

theorem page_selector_count_amended_witness :
    (selectPages 7 3 (2/5) (1/10)).map List.length
      = some (min 7 (max 2 (max 1 (specLargestSatisfying 7 3 (2/5) (1/10))))) :=
  page_selector_count_amended.1 7 3 (1/10) (by norm_num) (by norm_num)
    (by norm_num) (by norm_num) (by norm_num)

/-! ### Claim theorems: duration allocator and timeline compositor -/

/-- **C4**: `_compute_per_page_duration` returns exactly
`max(minPerPage, (maxDuration + (nSelected-1)*crossfade)/nSelected)`, which
is always `≥ minPerPage`; at `nSelected=3, maxDuration=10, minPerPage=0.4,
crossfade=0.15` it returns `(10 + 2*0.15)/3`. -/
theorem duration_allocator_spec :
    (∀ (n : ℕ) (md mpp cf : ℚ), 1 ≤ n → 0 < md → 0 < mpp → 0 ≤ cf → cf < 1 →
      computePerPageDuration n md mpp cf
          = max mpp ((md + ((n : ℚ) - 1) * cf) / (n : ℚ)) ∧
      mpp ≤ computePerPageDuration n md mpp cf) ∧
    computePerPageDuration 3 10 (2/5) (3/20) = (10 + 2 * (3/20)) / 3 := by
  refine ⟨fun n md mpp cf _ _ _ _ _ => ⟨rfl, le_max_left _ _⟩, ?_⟩
  norm_num [computePerPageDuration]

theorem duration_allocator_spec_witness :
    computePerPageDuration 3 10 (2/5) (3/20)
        = max (2/5) ((10 + ((3 : ℚ) - 1) * (3/20)) / (3 : ℚ)) ∧
      (2/5 : ℚ) ≤ computePerPageDuration 3 10 (2/5) (3/20) :=
  (duration_allocator_spec.1 3 10 (2/5) (3/20) (by norm_num) (by norm_num)
    (by norm_num) (by norm_num) (by norm_num))

/-- **C5**: with one frame or `crossfade ≤ 0` the composed timeline is a
single layer at start 0 of duration `perPageDuration` with no fade-in and
total duration `perPageDuration`; otherwise layer `i` starts at
`i*(perPageDuration - crossfade)`, every layer except the first fades in
over `crossfade`, and the total duration is
`(nFrames-1)*(perPageDuration-crossfade) + perPageDuration`. -/
theorem timeline_compositor_spec (nFrames : ℕ) (perPage cf : ℚ) :
    (nFrames = 1 ∨ cf ≤ 0 →
      composeTimeline nFrames perPage cf
        = ([⟨0, 0, perPage, 0⟩], perPage)) ∧
    (2 ≤ nFrames → 0 < cf →
      (composeTimeline nFrames perPage cf).1.length = nFrames ∧
      (∀ i (hi : i < (composeTimeline nFrames perPage cf).1.length),
        (composeTimeline nFrames perPage cf).1.get ⟨i, hi⟩
          = ⟨i, (i : ℚ) * (perPage - cf), perPage,
              if i = 0 then 0 else cf⟩) ∧
      (composeTimeline nFrames perPage cf).2
        = ((nFrames : ℚ) - 1) * (perPage - cf) + perPage) := by
  constructor
  · intro h
    unfold composeTimeline
    rw [if_pos h]
  · intro h2 hcf
    have hne : ¬ (nFrames = 1 ∨ cf ≤ 0) := by
      push_neg
      exact ⟨by omega, hcf⟩
    have hc : composeTimeline nFrames perPage cf =
        ((List.range nFrames).map (fun i =>
            (⟨i, (i : ℚ) * (perPage - cf), perPage,
              if 0 < i then cf else 0⟩ : TimedLayer)),
          ((nFrames : ℚ) - 1) * (perPage - cf) + perPage) := by
      unfold composeTimeline
      rw [if_neg hne]
    rw [hc]
    refine ⟨by simp, ?_, rfl⟩
    intro i hi
    simp only [List.length_map, List.length_range] at hi
    simp only [List.get_eq_getElem, List.getElem_map, List.getElem_range]
    by_cases h0 : i = 0
    · simp [h0]
    · simp [h0, Nat.pos_of_ne_zero h0]

theorem timeline_compositor_spec_witness :
    (composeTimeline 3 (103/30) (3/20)).2
        = ((3 : ℚ) - 1) * (103/30 - 3/20) + 103/30 :=
  ((timeline_compositor_spec 3 (103/30) (3/20)).2 (by norm_num)
    (by norm_num)).2.2

/-! ### Claim theorems: dimension resolver -/

/-- **C6**: presets are matched case-insensitively first
(`small→(320,480)`, `medium→(480,640)`, `large→(720,960)`); any other
accepted string parses as `positive x positive`; concretely
`"480x640" ↦ (480,640)`, `"medium" ↦ (480,640)`, and `"0x10"`/`"bogus"`
are rejected. -/
theorem dimension_resolver_spec :
    (∀ s : String, lowerStr s = "small" → parseDimensions s = some (320, 480)) ∧
    (∀ s : String, lowerStr s = "medium" → parseDimensions s = some (480, 640)) ∧
    (∀ s : String, lowerStr s = "large" → parseDimensions s = some (720, 960)) ∧
    (∀ (s : String) (w h : ℕ), parseDimensions s = some (w, h) → 0 < w ∧ 0 < h) ∧
    parseDimensions "480x640" = some (480, 640) ∧
    parseDimensions "medium" = some (480, 640) ∧
    parseDimensions "0x10" = none ∧
    parseDimensions "bogus" = none := by
  refine ⟨?_, ?_, ?_, ?_, by decide, by decide, by decide, by decide⟩
  · intro s h
    unfold parseDimensions
    rw [h]
    decide
  · intro s h
    unfold parseDimensions
    rw [h]
    decide
  · intro s h
    unfold parseDimensions
    rw [h]
    decide
  · intro s w h hp
    unfold parseDimensions at hp
    split_ifs at hp
    · cases hp; exact ⟨by norm_num, by norm_num⟩
    · cases hp; exact ⟨by norm_num, by norm_num⟩
    · cases hp; exact ⟨by norm_num, by norm_num⟩
    · revert hp
      split
      · split
        · intro hp
          split_ifs at hp with hwh
          cases hp
          push_neg at hwh
          exact ⟨by omega, by omega⟩
        · intro hp
          exact absurd hp (by simp)
      · intro hp
        exact absurd hp (by simp)

theorem dimension_resolver_spec_witness :
    parseDimensions "MEDIUM" = some (480, 640) :=
  dimension_resolver_spec.2.1 "MEDIUM" (by decide)

/-! ### Claim theorems: orchestrator error handling and outputs -/

lemma validatePdf_trace (env : Env) (path : String) (ms mp : ℕ) :
    (validatePdf env path ms mp).2 = [] ∨
      (validatePdf env path ms mp).2 = [Effect.openDoc] := by
  unfold validatePdf
  split_ifs
  · exact Or.inl rfl
  · exact Or.inl rfl
  · exact Or.inl rfl
  · split
    · exact Or.inr rfl
    · split_ifs
      · exact Or.inr rfl
      · exact Or.inr rfl

lemma validatePdf_trace_no_render (env : Env) (path : String) (ms mp : ℕ)
    (i : ℕ) (pth : String) :
    Effect.renderPage i ∉ (validatePdf env path ms mp).2 ∧
    Effect.writeGif pth ∉ (validatePdf env path ms mp).2 ∧
    Effect.writeMp4 pth ∉ (validatePdf env path ms mp).2 := by
  rcases validatePdf_trace env path ms mp with h | h <;> rw [h] <;> simp

lemma no_writes_in_open_trace (tr0 : List Effect) (p : String)
    (h1 : Effect.writeGif p ∉ tr0) (h2 : Effect.writeMp4 p ∉ tr0) :
    Effect.writeGif p ∉ tr0 ++ [Effect.openDoc] ∧
    Effect.writeMp4 p ∉ tr0 ++ [Effect.openDoc] := by
  constructor <;> intro hmem <;> rcases List.mem_append.mp hmem with hm | hm
  · exact h1 hm
  · simp at hm
  · exact h2 hm
  · simp at hm

lemma no_writes_in_preWriteTrace (tr0 : List Effect) (req : Request)
    (indices : List ℕ) (p : String)
    (h1 : Effect.writeGif p ∉ tr0) (h2 : Effect.writeMp4 p ∉ tr0) :
    Effect.writeGif p ∉ preWriteTrace tr0 req indices ∧
    Effect.writeMp4 p ∉ preWriteTrace tr0 req indices := by
  unfold preWriteTrace
  constructor <;> intro hmem <;>
    simp only [List.append_assoc, List.mem_append, List.mem_singleton,
      List.mem_map, List.mem_ite_nil_right] at hmem <;>
    rcases hmem with hm | hm | hm | hm | hm
  · exact h1 hm
  · simp at hm
  · obtain ⟨i, _, hi⟩ := hm; simp at hi
  · simp at hm
  · revert hm; split <;> simp
  · exact h2 hm
  · simp at hm
  · obtain ⟨i, _, hi⟩ := hm; simp at hi
  · simp at hm
  · revert hm; split <;> simp

lemma generate_error_no_writes (env : Env) (req : Request) (e : String)
    (herr : (generatePreview env req).1 = .error e) (p : String) :
    Effect.writeGif p ∉ (generatePreview env req).2 ∧
    Effect.writeMp4 p ∉ (generatePreview env req).2 := by
  revert herr
  unfold generatePreview
  split
  · exact fun _ => ⟨by simp, by simp⟩
  · split
    · exact fun _ => ⟨by simp, by simp⟩
    · split
      · exact fun _ => ⟨by simp, by simp⟩
      · split
        · rename_i e2 tr2 heq
          intro _
          have h := validatePdf_trace_no_render env req.pdfPath defaultMaxSize
            defaultMaxPages 0 p
          rw [heq] at h
          exact ⟨h.2.1, h.2.2⟩
        · rename_i xv a tr0 hval
          have h := validatePdf_trace_no_render env req.pdfPath defaultMaxSize
            defaultMaxPages 0 p
          rw [hval] at h
          split
          · intro _
            exact no_writes_in_open_trace tr0 p h.2.1 h.2.2
          · split
            · intro _
              exact no_writes_in_open_trace tr0 p h.2.1 h.2.2
            · split
              · intro _
                exact no_writes_in_preWriteTrace tr0 req _ p h.2.1 h.2.2
              · intro hok
                exact absurd hok (by simp)

/-- **C7, counterexample**: with a perfectly valid document and parameters
but the unrecognized format `"webm"`, `generate_preview` does raise the
format error — yet only after opening the document, rendering every
selected page and composing the timeline, contradicting the claim that the
error precedes any of those effects. -/
theorem format_error_not_early :
    (generatePreview ⟨true, 1000, some 3⟩
        ⟨"doc.pdf", "out", 10, "webm", "medium", 3/20, 15, 24⟩).1
      = .error badFormatMsg ∧
    Effect.openDoc ∈ (generatePreview ⟨true, 1000, some 3⟩
        ⟨"doc.pdf", "out", 10, "webm", "medium", 3/20, 15, 24⟩).2 ∧
    Effect.renderPage 0 ∈ (generatePreview ⟨true, 1000, some 3⟩
        ⟨"doc.pdf", "out", 10, "webm", "medium", 3/20, 15, 24⟩).2 ∧
    Effect.composeT ∈ (generatePreview ⟨true, 1000, some 3⟩
        ⟨"doc.pdf", "out", 10, "webm", "medium", 3/20, 15, 24⟩).2 := by
  refine ⟨by rfl, by decide, by decide, by decide⟩

/-- **C7, amended**: a non-positive `max_duration`, an out-of-range
crossfade or a bad dimensions string is reported immediately, with an empty
effect trace (no document open, no render, no composition, no directory
creation, no write); an unrecognized format is also reported as an error
and never produces an output write — but only after the document has been
opened, pages rendered and the timeline composed.  In general no error
outcome is ever accompanied by an output write. -/
theorem validation_error_ordering :
    (∀ env req, req.maxDuration ≤ 0 →
      generatePreview env req = (.error "max_duration must be positive.", [])) ∧
    (∀ env req, ¬ req.maxDuration ≤ 0 →
      (req.crossfade < 0 ∨ 1 ≤ req.crossfade) →
      generatePreview env req
        = (.error "crossfade must be between 0 and 1 second for best results.", [])) ∧
    (∀ env req, ¬ req.maxDuration ≤ 0 →
      ¬ (req.crossfade < 0 ∨ 1 ≤ req.crossfade) →
      parseDimensions req.dimensions = none →
      generatePreview env req = (.error invalidDimensionsMsg, [])) ∧
    (∀ env req e, (generatePreview env req).1 = .error e →
      ∀ p, Effect.writeGif p ∉ (generatePreview env req).2 ∧
        Effect.writeMp4 p ∉ (generatePreview env req).2) := by
  refine ⟨?_, ?_, ?_, fun env req e herr p => generate_error_no_writes env req e herr p⟩
  · intro env req h
    unfold generatePreview
    rw [if_pos h]
  · intro env req h1 h2
    unfold generatePreview
    rw [if_neg h1, if_pos h2]
  · intro env req h1 h2 hp
    unfold generatePreview
    rw [if_neg h1, if_neg h2, hp]

theorem validation_error_ordering_witness :
    generatePreview ⟨true, 1000, some 3⟩
        ⟨"doc.pdf", "out", -1, "gif", "medium", 3/20, 15, 24⟩
      = (.error "max_duration must be positive.", []) :=
  validation_error_ordering.1 ⟨true, 1000, some 3⟩
    ⟨"doc.pdf", "out", -1, "gif", "medium", 3/20, 15, 24⟩ (by norm_num)

/-- **C8**: `_validate_pdf` rejects each failure cause with its own
human-readable message — missing file, non-`.pdf` extension, a file over
the 25 MiB limit (in particular a 26 MiB = 27262976-byte file), an
unopenable document, and a page count over 100 (in particular 150 pages) —
the five messages are pairwise distinct, and a document error reaches the
caller of `generate_preview` before any page render or output write. -/
theorem document_validation_spec :
    (∀ (env : Env) (path : String) (ms mp : ℕ), env.isFile = false →
      (validatePdf env path ms mp).1 = .error "Input file does not exist.") ∧
    (∀ (env : Env) (path : String) (ms mp : ℕ), env.isFile = true →
      ".pdf".data.isSuffixOf (lowerStr path).data = false →
      (validatePdf env path ms mp).1 = .error "Input file must be a PDF (.pdf).") ∧
    (∀ (env : Env) (path : String), env.isFile = true →
      ".pdf".data.isSuffixOf (lowerStr path).data = true →
      env.sizeBytes = 26 * 1024 * 1024 →
      (validatePdf env path defaultMaxSize defaultMaxPages).1
        = .error "PDF exceeds the 25 MB size limit.") ∧
    (∀ (env : Env) (path : String) (ms : ℕ), env.isFile = true →
      ".pdf".data.isSuffixOf (lowerStr path).data = true →
      env.sizeBytes ≤ ms → env.openResult = none →
      (validatePdf env path ms defaultMaxPages).1
        = .error "Failed to open PDF. The file may be corrupted or not a valid PDF.") ∧
    (∀ (env : Env) (path : String) (ms : ℕ), env.isFile = true →
      ".pdf".data.isSuffixOf (lowerStr path).data = true →
      env.sizeBytes ≤ ms → env.openResult = some 150 →
      (validatePdf env path ms defaultMaxPages).1
        = .error "PDF exceeds the maximum page count of 100 (found 150).") ∧
    (["Input file does not exist.",
      "Input file must be a PDF (.pdf).",
      "PDF exceeds the 25 MB size limit.",
      "Failed to open PDF. The file may be corrupted or not a valid PDF.",
      "PDF exceeds the maximum page count of 100 (found 150)."] : List String).Nodup ∧
    (∀ (env : Env) (req : Request) (e : String),
      (validatePdf env req.pdfPath defaultMaxSize defaultMaxPages).1 = .error e →
      ¬ req.maxDuration ≤ 0 → ¬ (req.crossfade < 0 ∨ 1 ≤ req.crossfade) →
      (parseDimensions req.dimensions).isSome = true →
      (generatePreview env req).1 = .error e ∧
      (∀ i, Effect.renderPage i ∉ (generatePreview env req).2) ∧
      (∀ pth, Effect.writeGif pth ∉ (generatePreview env req).2 ∧
        Effect.writeMp4 pth ∉ (generatePreview env req).2)) := by
  refine ⟨?_, ?_, ?_, ?_, ?_, by decide, ?_⟩
  · intro env path ms mp h
    unfold validatePdf
    rw [if_pos h]
  · intro env path ms mp h1 h2
    unfold validatePdf
    rw [if_neg (by simp [h1]), if_pos h2]
  · intro env path h1 h2 h3
    unfold validatePdf
    rw [if_neg (by simp [h1]), if_neg (by simp [h2]),
      if_pos (by rw [h3]; norm_num [defaultMaxSize])]
  · intro env path ms h1 h2 h3 h4
    unfold validatePdf
    rw [if_neg (by simp [h1]), if_neg (by simp [h2]), if_neg (not_lt.mpr h3), h4]
  · intro env path ms h1 h2 h3 h4
    unfold validatePdf
    rw [if_neg (by simp [h1]), if_neg (by simp [h2]), if_neg (not_lt.mpr h3), h4]
    dsimp only
    rw [if_pos (by norm_num [defaultMaxPages])]
    rfl
  · intro env req e herr h1 h2 hdims
    obtain ⟨wh, hwh⟩ := Option.isSome_iff_exists.mp hdims
    rcases hv : validatePdf env req.pdfPath defaultMaxSize defaultMaxPages
      with ⟨v1, vtr⟩
    rw [hv] at herr
    obtain rfl : v1 = .error e := herr
    have hgen : generatePreview env req = (.error e, vtr) := by
      unfold generatePreview
      rw [if_neg h1, if_neg h2, hwh, hv]
    rw [hgen]
    refine ⟨rfl, ?_, ?_⟩
    · intro i
      have h := validatePdf_trace_no_render env req.pdfPath defaultMaxSize
        defaultMaxPages i ""
      rw [hv] at h
      exact h.1
    · intro pth
      have h := validatePdf_trace_no_render env req.pdfPath defaultMaxSize
        defaultMaxPages 0 pth
      rw [hv] at h
      exact ⟨h.2.1, h.2.2⟩

theorem document_validation_spec_witness :
    (validatePdf ⟨true, 1000, some 150⟩ "doc.pdf" 26214400 defaultMaxPages).1
      = .error "PDF exceeds the maximum page count of 100 (found 150)." :=
  document_validation_spec.2.2.2.2.1 ⟨true, 1000, some 150⟩ "doc.pdf" 26214400
    (by rfl) (by decide) (by norm_num) (by rfl)

/-- **C9**: on a successful call, `generate_preview` returns exactly
`[basename + ".gif", basename + ".mp4"]` (in that order) for
`format = "all"`, exactly `[basename + ".gif"]` for `"gif"`, and exactly
`[basename + ".mp4"]` for `"mp4"`. -/
theorem generate_output_paths (env : Env) (req : Request)
    (hmd : 0 < req.maxDuration) (hcf0 : 0 ≤ req.crossfade)
    (hcf1 : req.crossfade < 1)
    (hdims : (parseDimensions req.dimensions).isSome = true)
    (hfile : env.isFile = true)
    (hext : ".pdf".data.isSuffixOf (lowerStr req.pdfPath).data = true)
    (hsize : env.sizeBytes ≤ defaultMaxSize)
    (pc : ℕ) (hopen : env.openResult = some pc) (hpc1 : 1 ≤ pc)
    (hpc : pc ≤ defaultMaxPages) :
    (req.format = "all" → (generatePreview env req).1
        = .ok [req.outputBasename ++ ".gif", req.outputBasename ++ ".mp4"]) ∧
    (req.format = "gif" → (generatePreview env req).1
        = .ok [req.outputBasename ++ ".gif"]) ∧
    (req.format = "mp4" → (generatePreview env req).1
        = .ok [req.outputBasename ++ ".mp4"]) := by
  have hval : validatePdf env req.pdfPath defaultMaxSize defaultMaxPages
      = (.ok (), [Effect.openDoc]) := by
    unfold validatePdf
    rw [if_neg (by simp [hfile]), if_neg (by simp [hext]),
      if_neg (not_lt.mpr hsize), hopen]
    dsimp only
    rw [if_neg (not_lt.mpr hpc)]
  obtain ⟨wh, hwh⟩ := Option.isSome_iff_exists.mp hdims
  obtain ⟨n0, l, _, hsel, _⟩ :=
    selectPages_spec pc req.maxDuration minPerPageConst req.crossfade hpc1
  have hred : ∀ _h : ¬ (lowerStr req.format ≠ "gif" ∧ lowerStr req.format ≠ "mp4" ∧
      lowerStr req.format ≠ "all"),
      (generatePreview env req).1 = .ok (gifOutputs req ++ mp4Outputs req) := by
    intro h
    unfold generatePreview
    rw [if_neg (not_le.mpr hmd),
      if_neg (by push_neg; exact ⟨hcf0, hcf1⟩), hwh, hval, hopen]
    dsimp only
    rw [hsel]
    dsimp only
    rw [if_neg h]
  refine ⟨?_, ?_, ?_⟩
  · intro hf
    rw [hred (by rw [hf]; decide)]
    unfold gifOutputs mp4Outputs
    rw [hf]
    rw [if_pos (by decide), if_pos (by decide)]
    rfl
  · intro hf
    rw [hred (by rw [hf]; decide)]
    unfold gifOutputs mp4Outputs
    rw [hf]
    rw [if_pos (by decide), if_neg (by decide)]
    rfl
  · intro hf
    rw [hred (by rw [hf]; decide)]
    unfold gifOutputs mp4Outputs
    rw [hf]
    rw [if_neg (by decide), if_pos (by decide)]
    rfl

theorem generate_output_paths_witness :
    (generatePreview ⟨true, 1000, some 3⟩
        ⟨"doc.pdf", "out", 10, "all", "medium", 3/20, 15, 24⟩).1
      = .ok ["out" ++ ".gif", "out" ++ ".mp4"] :=
  (generate_output_paths ⟨true, 1000, some 3⟩
      ⟨"doc.pdf", "out", 10, "all", "medium", 3/20, 15, 24⟩
      (by norm_num) (by norm_num) (by norm_num) (by decide) (by rfl)
      (by decide) (by norm_num [defaultMaxSize]) 3 (by rfl) (by norm_num)
      (by norm_num [defaultMaxPages])).1 (by rfl)

end PdfPreview
